import Mathlib

/-!
Verification development for the pdf-parser repository.

The pipeline of the repository (src/parser_cli.py, src/app.py) is shallowly
embedded below.  Pure text-processing functions (`clean_text`,
`extract_text_from_pdf`, the response validation of the `__main__` block)
become Lean functions on `String` / `List Char`; the external effectful
collaborators (the `fitz.open` call of PyMuPDF, the LLM call, `json.loads`) are
passed in as function-valued parameters whose `Option` results model
"raises an exception" as `none`; the FastAPI upload handler becomes an
explicit state transformer over a filesystem map and the database table.

Python strings are modelled as Lean `String`s over their character lists.
`str.strip` and `str.lower` are modelled at ASCII granularity (every
character class used by the code and kept by `clean_text` is ASCII).
-/

namespace PdfParser

/-! ### Python string primitives -/

/-- Characters stripped by the Python `str.strip()` method: every ASCII
character for which `str.isspace()` holds — space, tab, newline, vertical
tab, form feed, carriage return, and the separators U+001C–U+001F. -/
def isPySpace (c : Char) : Bool :=
  c == ' ' || c == '\t' || c == '\n' || c == '\r' || c == '\x0b' || c == '\x0c' ||
  c == '\x1c' || c == '\x1d' || c == '\x1e' || c == '\x1f'

/-- Python `str.strip()` on a character list: drop whitespace from both ends. -/
def pyStrip (l : List Char) : List Char :=
  ((l.dropWhile isPySpace).reverse.dropWhile isPySpace).reverse

/-- Python `str.strip()`. -/
def stripStr (s : String) : String :=
  ⟨pyStrip s.data⟩

/-- Python `str.lower()` on one character (ASCII model: 65–90 are `A`–`Z`,
shifted by 32 to `a`–`z`; everything else unchanged). -/
def lowerChar (c : Char) : Char :=
  if 65 ≤ c.toNat && c.toNat ≤ 90 then Char.ofNat (c.toNat + 32) else c

/-! ### clean_text  (src/parser_cli.py lines 91–95, src/app.py lines 122–126) -/

/-- The character class `[\n\r]` of the first `re.sub` in `clean_text`. -/
def isLineBreak (c : Char) : Bool :=
  c == '\n' || c == '\r'

/-- The allow-set `[a-z0-9#:\-. ]` of the second `re.sub` in `clean_text`
(97–122 are `a`–`z`, 48–57 are `0`–`9`). -/
def isAllowed (c : Char) : Bool :=
  (97 ≤ c.toNat && c.toNat ≤ 122) || (48 ≤ c.toNat && c.toNat ≤ 57) ||
  c == '#' || c == ':' || c == '-' || c == '.' || c == ' '

/-- The space character, as the class of `re.sub(r' +', ' ', ...)`. -/
def isSpaceChar (c : Char) : Bool :=
  c == ' '

/-- Models `re.sub` with a pattern of the form one-or-more-of-a-class and a
one-character replacement:
every maximal nonempty run of characters in `p` is replaced by the single
character `r`.  The boolean flag records whether we are inside a run. -/
def replaceRuns (p : Char → Bool) (r : Char) : Bool → List Char → List Char
  | _, [] => []
  | inRun, c :: cs =>
    if p c then
      if inRun then replaceRuns p r true cs
      else r :: replaceRuns p r true cs
    else c :: replaceRuns p r false cs

/-- Body of `clean_text` on character lists: lowercase, then
`re.sub(r'[\n\r]+', ' ', ...)`, then `re.sub(r'[^a-z0-9#:\-. ]', '', ...)`,
then `re.sub(r' +', ' ', ...)`, then `.strip()`. -/
def clean_list (l : List Char) : List Char :=
  pyStrip (replaceRuns isSpaceChar ' ' false
    ((replaceRuns isLineBreak ' ' false (l.map lowerChar)).filter isAllowed))

/-- Function `clean_text` from src/parser_cli.py lines 91–95 (identical in src/app.py). -/
def clean_text (s : String) : String :=
  ⟨clean_list s.data⟩

/-! ### extract_text_from_pdf  (src/parser_cli.py lines 82–89, src/app.py 110–120) -/

/-- A PDF document as the extraction layer sees it: the digital text of each
page (what `page.get_text()` returns) and the OCR text of each page (what
`pytesseract.image_to_string` returns on the rasterized page). -/
structure PdfDoc where
  digitalPages : List String
  ocrPages : List String
  deriving DecidableEq

/-- Python `"\n".join(...)` over the per-page texts. -/
def joinPages (pages : List String) : String :=
  String.intercalate "\n" pages

/-- Function `extract_text_from_pdf` from src/parser_cli.py lines 82–89: join the
digital page texts; if the stripped result has more than 100 characters
return it, otherwise return the joined per-page OCR text.  The boolean
records whether the OCR path was taken. -/
def extract_text_from_pdf (doc : PdfDoc) : String × Bool :=
  let fitz_text := joinPages doc.digitalPages
  if 100 < (stripStr fitz_text).length then (fitz_text, false)
  else (joinPages doc.ocrPages, true)

/-! ### Response validation  (src/parser_cli.py lines 111–127, src/app.py 148–163) -/

/-- The static allow-list `approved_stores` (src/parser_cli.py line 11,
src/app.py line 38). -/
def approved_stores : List String :=
  ["829", "899", "436", "499", "407", "115", "712"]

/-- Python `"-" in s`. -/
def containsDash (s : String) : Bool :=
  s.data.contains '-'

/-- Python `s.split("-")[0]`: the characters before the first `-`. -/
def beforeFirstDash (s : String) : String :=
  ⟨s.data.takeWhile (fun c => c ≠ '-')⟩

/-- The characters after the first `-` (used only to state the identifier
grammar of the spec). -/
def afterFirstDash (s : String) : String :=
  ⟨(s.data.dropWhile (fun c => c ≠ '-')).drop 1⟩

/-- An exactly-5-digit numeric string (spec wording for POCODE). -/
def isFiveDigits (s : String) : Bool :=
  s.data.length == 5 && s.data.all (fun c => c.isDigit)

/-- Modelled from the words of the spec (for comparison with the code): an
Identifier is the sentinel or `STORE "-" POCODE` with STORE in the
allow-list and POCODE an exactly-5-digit numeric string. -/
def specValidIdentifier (s : String) : Bool :=
  s == "UNKNOWN" ||
  (containsDash s && approved_stores.contains (beforeFirstDash s) &&
    isFiveDigits (afterFirstDash s))

/-- A JSON value as `json.loads` can return it for the `translated_po`
field, classified by how lines 122–125 treat it: `jstr` is a JSON string;
`jiter` is an array or object (iterable, so `"-" in value` works — the flag
records whether `"-"` occurs as an element/key); `jscalar` is a number,
boolean or null (not iterable, so `"-" in value` raises TypeError). -/
inductive JsonValue where
  | jstr (s : String)
  | jiter (hasDash : Bool)
  | jscalar
  deriving DecidableEq

/-- The parsed JSON object, restricted to the field the pipeline reads:
the `translated_po` value (`none` models an absent field). -/
structure PoData where
  translated_po : Option JsonValue

/-- src/parser_cli.py lines 122–125 (identical in src/app.py 159–163):
`po_data.get("translated_po", "UNKNOWN")`, then
`translated_po.split("-")[0] if "-" in translated_po else "UNKNOWN"`,
then replacement by the sentinel when the store code is not approved. -/
def validate_po (field : Option String) : String :=
  let translated_po := field.getD "UNKNOWN"
  let store_code :=
    if containsDash translated_po then beforeFirstDash translated_po
    else "UNKNOWN"
  if store_code ∉ approved_stores then "UNKNOWN" else translated_po

/-- Result of lines 122–125 on a parsed field value: either the string
`translated_po` holds after the store-code check, or the lines raise an
uncaught exception. -/
inductive FieldOutcome where
  | value (s : String)
  | raise
  deriving DecidableEq

/-- src/parser_cli.py lines 122–125 (identical in src/app.py 159–163) on
the parsed `translated_po` value of any JSON type.  An absent field
defaults to the string `"UNKNOWN"`; a string value goes through
`validate_po`; an array/object raises AttributeError at `.split` when it
contains `"-"` and otherwise falls to the dashless path, where line 124
replaces it with the sentinel; a number, boolean or null raises TypeError
at the `"-" in translated_po` test. -/
def validate_field : Option JsonValue → FieldOutcome
  | none => .value (validate_po none)
  | some (.jstr s) => .value (validate_po (some s))
  | some (.jiter true) => .raise
  | some (.jiter false) => .value "UNKNOWN"
  | some .jscalar => .raise

/-- Models the `re.search` of a DOTALL non-greedy brace-delimited pattern:
the leftmost such substring.  It starts at the first opening brace of the
string and ends at the first closing brace after it; there is no match when
either brace is missing in that order. -/
def findJsonCandidate (s : String) : Option String :=
  match s.data.dropWhile (fun c => c ≠ '{') with
  | [] => none
  | _ :: rest =>
    if rest.contains '}' then
      some ⟨'{' :: rest.takeWhile (fun c => c ≠ '}') ++ ['}']⟩
    else none

/-! ### The batch CLI  (src/parser_cli.py lines 97–127) -/

/-- Observable outcome of one CLI run: `success po` prints the single line
`\x7b"po_number": po\x7d` and exits 0; `failure e` prints the single line
`\x7b"error": e, ...\x7d` and exits 1; `crash` models an uncaught Python
exception — a traceback on stderr, no JSON line on stdout, nonzero exit. -/
inductive CliOutcome where
  | success (po_number : String)
  | failure (error : String)
  | crash
  deriving DecidableEq

/-- Number of JSON lines the outcome writes to stdout. -/
def CliOutcome.jsonLineCount : CliOutcome → Nat
  | .success _ => 1
  | .failure _ => 1
  | .crash => 0

/-- Process exit status of the outcome. -/
def CliOutcome.exitCode : CliOutcome → Nat
  | .success _ => 0
  | .failure _ => 1
  | .crash => 1

/-- External collaborators of one CLI run: the (optional) command-line
argument, `fitz.open` (`none` = raises), the LLM invocation (`none` =
raises), and `json.loads` on the matched snippet (`none` = JSONDecodeError,
`some` = the parsed object, carrying its `translated_po` value). -/
structure CliEnv where
  argvPath : Option String
  openDoc : String → Option PdfDoc
  llm : String → Option String
  jsonLoads : String → Option PoData

/-- src/parser_cli.py lines 111–127: regex-extract a JSON object from the
raw model response, parse it, validate the identifier.  No JSON or a parse
failure prints an error line and exits 1; a non-string `translated_po` that
makes lines 122–125 raise crashes the run uncaught. -/
def cli_validate (jsonLoads : String → Option PoData) (result : String) :
    CliOutcome :=
  match findJsonCandidate result with
  | none => .failure "No JSON"
  | some snippet =>
    match jsonLoads snippet with
    | none => .failure "Bad JSON"
    | some po_data =>
      match validate_field po_data.translated_po with
      | .raise => .crash
      | .value translated_po => .success translated_po

/-- The `__main__` block of src/parser_cli.py (lines 97–127). -/
def cli_main (env : CliEnv) : CliOutcome :=
  match env.argvPath with
  | none => .failure "No file path provided"
  | some file_path =>
    match env.openDoc file_path with
    | none => .crash
    | some doc =>
      let cleaned_text := clean_text (extract_text_from_pdf doc).1
      if stripStr cleaned_text = "" then .failure "No text extracted"
      else
        match env.llm cleaned_text with
        | none => .crash
        | some result => cli_validate env.jsonLoads result

/-! ### The upload endpoint and record store  (src/app.py lines 128–170) -/

/-- Server-side state: the stored files (`PDF_storage/` on disk, a map from
path to bytes) and the `purchase_orders` table rows `(po_number, pdf_path)`
in insertion order. -/
structure AppState where
  files : String → Option (List Nat)
  dbRecords : List (String × String)

/-- External collaborators of one upload run (as in `CliEnv`, but
`fitz.open` reads the bytes just written to storage). -/
structure UploadEnv where
  openDoc : List Nat → Option PdfDoc
  llm : String → Option String
  jsonLoads : String → Option PoData

/-- An uploaded file: the client-supplied name and content bytes. -/
structure UploadedFile where
  filename : String
  content : List Nat

/-- Observable outcome of one upload request: `ok` is the 200 response with
`po_number` and `pdf_path`; `clientError` is the 400 `JSONResponse`;
`crash` models an uncaught exception (fitz failure, LLM failure, a
non-string `translated_po` raising at line 160, or the `IntegrityError`
raised by `session.commit()`). -/
inductive UploadResult where
  | ok (po_number pdf_path : String)
  | clientError (msg : String)
  | crash
  deriving DecidableEq

/-- Path `os.path.join(UPLOAD_DIR, file.filename)` with `UPLOAD_DIR =
"PDF_storage"` (relative filenames). -/
def storagePath (filename : String) : String :=
  "PDF_storage/" ++ filename

/-- One insert into `purchase_orders` followed by `session.commit()`:
`po_number` is declared `unique=True` (src/app.py line 33), so a commit
with an already-present `po_number` raises `IntegrityError` and leaves the
table unchanged; otherwise the row is appended. -/
def db_insert (db : List (String × String)) (po pdf : String) :
    Except Unit (List (String × String)) :=
  if db.any (fun r => r.1 == po) then .error ()
  else .ok (db ++ [(po, pdf)])

/-- Handler `upload_pdf` from src/app.py lines 128–170: write the uploaded bytes to
`PDF_storage/<filename>` first, then extract, clean, translate, validate,
and insert the `(po_number, pdf_path)` row. -/
def upload_pdf (env : UploadEnv) (st : AppState) (f : UploadedFile) :
    AppState × UploadResult :=
  let file_location := storagePath f.filename
  let st1 : AppState :=
    ⟨fun p => if p = file_location then some f.content else st.files p,
     st.dbRecords⟩
  match env.openDoc f.content with
  | none => (st1, .crash)
  | some doc =>
    let cleaned_text := clean_text (extract_text_from_pdf doc).1
    if stripStr cleaned_text = "" then (st1, .clientError "No text extracted.")
    else
      match env.llm cleaned_text with
      | none => (st1, .crash)
      | some result =>
        match findJsonCandidate result with
        | none => (st1, .clientError "No JSON")
        | some snippet =>
          match env.jsonLoads snippet with
          | none => (st1, .clientError "Bad JSON")
          | some po_data =>
            match validate_field po_data.translated_po with
            | .raise => (st1, .crash)
            | .value translated_po =>
              match db_insert st1.dbRecords translated_po file_location with
              | .error _ => (st1, .crash)
              | .ok db2 => (⟨st1.files, db2⟩, .ok translated_po file_location)

end PdfParser

namespace PdfParser

/-! ### Generic list lemmas -/

theorem dropWhile_idem (p : Char → Bool) (l : List Char) :
    (l.dropWhile p).dropWhile p = l.dropWhile p := by
  induction l with
  | nil => rfl
  | cons c cs ih =>
    by_cases hp : p c = true
    · rw [List.dropWhile_cons_of_pos hp, ih]
    · rw [List.dropWhile_cons_of_neg hp, List.dropWhile_cons_of_neg hp]

theorem dropWhile_length_le (p : Char → Bool) (l : List Char) :
    (l.dropWhile p).length ≤ l.length := by
  induction l with
  | nil => simp
  | cons c cs ih =>
    by_cases hp : p c = true
    · rw [List.dropWhile_cons_of_pos hp]; exact Nat.le_succ_of_le ih
    · rw [List.dropWhile_cons_of_neg hp]

theorem mem_dropWhile (p : Char → Bool) (l : List Char) (c : Char)
    (h : c ∈ l.dropWhile p) : c ∈ l := by
  induction l with
  | nil => simp at h
  | cons a cs ih =>
    by_cases hp : p a = true
    · rw [List.dropWhile_cons_of_pos hp] at h
      exact List.mem_cons_of_mem a (ih h)
    · rwa [List.dropWhile_cons_of_neg hp] at h

theorem dropWhile_cons_eq_self (p : Char → Bool) (a : Char) (t : List Char)
    (h : (a :: t).dropWhile p = a :: t) : p a = false := by
  by_cases hp : p a = true
  · exfalso
    rw [List.dropWhile_cons_of_pos hp] at h
    have hle := dropWhile_length_le p t
    rw [h] at hle
    simp at hle
  · simp at hp
    exact hp

theorem chain'_dropWhile {R : Char → Char → Prop} (p : Char → Bool)
    (l : List Char) (h : List.Chain' R l) : List.Chain' R (l.dropWhile p) := by
  induction l with
  | nil => exact h
  | cons c cs ih =>
    by_cases hp : p c = true
    · rw [List.dropWhile_cons_of_pos hp]
      exact ih h.tail
    · rwa [List.dropWhile_cons_of_neg hp]

/-! ### pyStrip lemmas -/

theorem pyStrip_sub (l : List Char) (c : Char) (h : c ∈ pyStrip l) : c ∈ l := by
  unfold pyStrip at h
  rw [List.mem_reverse] at h
  have h2 := mem_dropWhile _ _ _ h
  rw [List.mem_reverse] at h2
  exact mem_dropWhile _ _ _ h2

theorem dropWhile_trim_eq (p : Char → Bool) (m : List Char)
    (hm : m.dropWhile p = m) :
    ((m.reverse.dropWhile p).reverse).dropWhile p = (m.reverse.dropWhile p).reverse := by
  have hdecomp : m = (m.reverse.dropWhile p).reverse ++ (m.reverse.takeWhile p).reverse := by
    conv_lhs => rw [← List.reverse_reverse m,
      ← List.takeWhile_append_dropWhile p m.reverse]
    rw [List.reverse_append]
  cases hn : (m.reverse.dropWhile p).reverse with
  | nil => rfl
  | cons a n' =>
    rw [hn] at hdecomp
    have hm' : m.dropWhile p = m := hm
    rw [hdecomp] at hm'
    have hpa : p a = false := by
      have := dropWhile_cons_eq_self p a (n' ++ (m.reverse.takeWhile p).reverse) (by simpa using hm')
      exact this
    rw [List.dropWhile_cons_of_neg (by simp [hpa])]

theorem pyStrip_idem (l : List Char) : pyStrip (pyStrip l) = pyStrip l := by
  unfold pyStrip
  set q := isPySpace
  have hm : (l.dropWhile q).dropWhile q = l.dropWhile q := dropWhile_idem q l
  have hn := dropWhile_trim_eq q (l.dropWhile q) hm
  rw [hn]
  rw [List.reverse_reverse]
  rw [dropWhile_idem]

theorem chain'_pyStrip {R : Char → Char → Prop} (l : List Char)
    (h : List.Chain' R l) : List.Chain' R (pyStrip l) := by
  unfold pyStrip
  apply List.chain'_reverse.mpr
  apply chain'_dropWhile
  apply List.chain'_reverse.mpr
  show List.Chain' R (List.dropWhile isPySpace l)
  exact chain'_dropWhile _ _ h

end PdfParser

namespace PdfParser

/-! ### replaceRuns lemmas -/

theorem replaceRuns_nil (p : Char → Bool) (r : Char) (b : Bool) :
    replaceRuns p r b [] = [] := rfl

theorem replaceRuns_cons_pos_true (p : Char → Bool) (r c : Char)
    (cs : List Char) (hp : p c = true) :
    replaceRuns p r true (c :: cs) = replaceRuns p r true cs := by
  simp [replaceRuns, hp]

theorem replaceRuns_cons_pos_false (p : Char → Bool) (r c : Char)
    (cs : List Char) (hp : p c = true) :
    replaceRuns p r false (c :: cs) = r :: replaceRuns p r true cs := by
  simp [replaceRuns, hp]

theorem replaceRuns_cons_neg (p : Char → Bool) (r c : Char)
    (cs : List Char) (hp : p c = false) (b : Bool) :
    replaceRuns p r b (c :: cs) = c :: replaceRuns p r false cs := by
  simp [replaceRuns, hp]

/-- The no-two-adjacent-run-characters relation for the run class `p`. -/
def noTwoR (p : Char → Bool) (a b : Char) : Prop :=
  ¬(p a = true ∧ p b = true)

theorem replaceRuns_id_of_none (p : Char → Bool) (r : Char) (l : List Char)
    (h : ∀ c ∈ l, p c = false) : ∀ b, replaceRuns p r b l = l := by
  induction l with
  | nil => intro b; rfl
  | cons c cs ih =>
    intro b
    have hc : p c = false := h c (List.mem_cons_self c cs)
    have ih' := ih (fun d hd => h d (List.mem_cons_of_mem c hd))
    rw [replaceRuns_cons_neg p r c cs hc b, ih' false]

theorem mem_replaceRuns (p : Char → Bool) (r : Char) :
    ∀ (l : List Char) (b : Bool) (c : Char),
      c ∈ replaceRuns p r b l → c = r ∨ c ∈ l := by
  intro l
  induction l with
  | nil => intro b c h; simp [replaceRuns] at h
  | cons a cs ih =>
    intro b c h
    by_cases hp : p a = true
    · cases b with
      | true =>
        rw [replaceRuns_cons_pos_true p r a cs hp] at h
        rcases ih true c h with h' | h'
        · exact Or.inl h'
        · exact Or.inr (List.mem_cons_of_mem a h')
      | false =>
        rw [replaceRuns_cons_pos_false p r a cs hp] at h
        rcases List.mem_cons.mp h with h' | h'
        · exact Or.inl h'
        · rcases ih true c h' with h'' | h''
          · exact Or.inl h''
          · exact Or.inr (List.mem_cons_of_mem a h'')
    · have hpf : p a = false := by simpa using hp
      rw [replaceRuns_cons_neg p r a cs hpf b] at h
      rcases List.mem_cons.mp h with h' | h'
      · exact Or.inr (h' ▸ List.mem_cons_self a cs)
      · rcases ih false c h' with h'' | h''
        · exact Or.inl h''
        · exact Or.inr (List.mem_cons_of_mem a h'')

theorem replaceRuns_chain' (p : Char → Bool) (r : Char) :
    ∀ l : List Char,
      List.Chain' (noTwoR p) (replaceRuns p r false l) ∧
      List.Chain' (noTwoR p) (replaceRuns p r true l) ∧
      (∀ c, (replaceRuns p r true l).head? = some c → p c = false) := by
  intro l
  induction l with
  | nil => exact ⟨List.chain'_nil, List.chain'_nil, fun c h => by simp [replaceRuns] at h⟩
  | cons a cs ih =>
    obtain ⟨ihf, iht, ihh⟩ := ih
    by_cases hp : p a = true
    · refine ⟨?_, ?_, ?_⟩
      · rw [replaceRuns_cons_pos_false p r a cs hp, List.chain'_cons']
        refine ⟨?_, iht⟩
        intro y hy
        have hyf := ihh y hy
        exact fun hc => by rw [hyf] at hc; exact Bool.false_ne_true hc.2
      · rw [replaceRuns_cons_pos_true p r a cs hp]; exact iht
      · intro c h
        rw [replaceRuns_cons_pos_true p r a cs hp] at h
        exact ihh c h
    · have hpf : p a = false := by simpa using hp
      refine ⟨?_, ?_, ?_⟩
      · rw [replaceRuns_cons_neg p r a cs hpf false, List.chain'_cons']
        refine ⟨?_, ihf⟩
        intro y hy
        exact fun hc => by rw [hpf] at hc; exact Bool.false_ne_true hc.1
      · rw [replaceRuns_cons_neg p r a cs hpf true, List.chain'_cons']
        refine ⟨?_, ihf⟩
        intro y hy
        exact fun hc => by rw [hpf] at hc; exact Bool.false_ne_true hc.1
      · intro c h
        rw [replaceRuns_cons_neg p r a cs hpf true] at h
        simp only [List.head?_cons, Option.some.injEq] at h
        rw [← h]; exact hpf

theorem replaceRuns_eq_self (p : Char → Bool) (r : Char)
    (hpr : ∀ c, p c = true → c = r) :
    ∀ l : List Char, List.Chain' (noTwoR p) l →
      replaceRuns p r false l = l ∧
      ((∀ c, l.head? = some c → p c = false) → replaceRuns p r true l = l) := by
  intro l
  induction l with
  | nil => exact fun _ => ⟨rfl, fun _ => rfl⟩
  | cons a cs ih =>
    intro hch
    rw [List.chain'_cons'] at hch
    obtain ⟨hhead, hcs⟩ := hch
    obtain ⟨ihf, iht⟩ := ih hcs
    by_cases hp : p a = true
    · have har : a = r := hpr a hp
      have hcs_head : ∀ c, cs.head? = some c → p c = false := by
        intro c hc
        have hnt := hhead c hc
        unfold noTwoR at hnt
        by_cases h2 : p c = true
        · exact absurd ⟨hp, h2⟩ hnt
        · simpa using h2
      constructor
      · rw [replaceRuns_cons_pos_false p r a cs hp, iht hcs_head, har]
      · intro hh
        have hfalse := hh a rfl
        rw [hp] at hfalse
        exact absurd hfalse (by simp)
    · have hpf : p a = false := by simpa using hp
      constructor
      · rw [replaceRuns_cons_neg p r a cs hpf false, ihf]
      · intro _
        rw [replaceRuns_cons_neg p r a cs hpf true, ihf]

end PdfParser

namespace PdfParser

/-! ### Character class facts -/

theorem isAllowed_toNat (c : Char) (h : isAllowed c = true) :
    (97 ≤ c.toNat ∧ c.toNat ≤ 122) ∨ (48 ≤ c.toNat ∧ c.toNat ≤ 57) ∨
    c.toNat = 35 ∨ c.toNat = 58 ∨ c.toNat = 45 ∨ c.toNat = 46 ∨ c.toNat = 32 := by
  unfold isAllowed at h
  simp only [Bool.or_eq_true, Bool.and_eq_true, decide_eq_true_eq, beq_iff_eq] at h
  rcases h with (((((⟨h1, h2⟩ | ⟨h1, h2⟩) | h1) | h1) | h1) | h1) | h1
  · exact Or.inl ⟨h1, h2⟩
  · exact Or.inr (Or.inl ⟨h1, h2⟩)
  all_goals subst h1; decide

theorem isAllowed_lowerChar_fix (c : Char) (h : isAllowed c = true) :
    lowerChar c = c := by
  have ht := isAllowed_toNat c h
  have hnot : ¬(65 ≤ c.toNat ∧ c.toNat ≤ 90) := by omega
  simp only [lowerChar, Bool.and_eq_true, decide_eq_true_eq]
  rw [if_neg hnot]

theorem isAllowed_not_break (c : Char) (h : isAllowed c = true) :
    isLineBreak c = false := by
  have ht := isAllowed_toNat c h
  unfold isLineBreak
  simp only [Bool.or_eq_false_iff, beq_eq_false_iff_ne, ne_eq]
  constructor
  · intro heq; subst heq; exact absurd ht (by decide)
  · intro heq; subst heq; exact absurd ht (by decide)

end PdfParser

namespace PdfParser

/-! ### clean_text invariants and idempotence (C9) -/

theorem clean_list_allowed (l : List Char) :
    ∀ c ∈ clean_list l, isAllowed c = true := by
  intro c hc
  unfold clean_list at hc
  have hc1 := pyStrip_sub _ _ hc
  rcases mem_replaceRuns _ _ _ _ _ hc1 with h | h
  · subst h; decide
  · exact (List.mem_filter.mp h).2

theorem clean_list_chain (l : List Char) :
    List.Chain' (noTwoR isSpaceChar) (clean_list l) := by
  unfold clean_list
  exact chain'_pyStrip _ (replaceRuns_chain' _ _ _).1

theorem clean_list_strip (l : List Char) :
    pyStrip (clean_list l) = clean_list l := by
  unfold clean_list
  exact pyStrip_idem _

theorem clean_list_idem (l : List Char) :
    clean_list (clean_list l) = clean_list l := by
  have hall : ∀ c ∈ clean_list l, isAllowed c = true := clean_list_allowed l
  have hmap : (clean_list l).map lowerChar = clean_list l := by
    conv_rhs => rw [← List.map_id (clean_list l)]
    exact List.map_congr_left (fun a ha => isAllowed_lowerChar_fix a (hall a ha))
  have hbreak : replaceRuns isLineBreak ' ' false (clean_list l) = clean_list l :=
    replaceRuns_id_of_none _ _ _
      (fun c hc => isAllowed_not_break c (hall c hc)) false
  have hfilter : (clean_list l).filter isAllowed = clean_list l :=
    List.filter_eq_self.mpr hall
  have hspace : replaceRuns isSpaceChar ' ' false (clean_list l) = clean_list l :=
    (replaceRuns_eq_self isSpaceChar ' '
      (fun c hc => by simpa [isSpaceChar] using hc)
      (clean_list l) (clean_list_chain l)).1
  have hstrip := clean_list_strip l
  set y := clean_list l with hy
  unfold clean_list
  rw [hmap, hbreak, hfilter, hspace]
  exact hstrip

end PdfParser

namespace PdfParser

/-! ### validate_po lemmas -/

theorem validate_po_none : validate_po none = "UNKNOWN" := rfl

theorem validate_po_some_approved (s : String) (hd : containsDash s = true)
    (hm : beforeFirstDash s ∈ approved_stores) : validate_po (some s) = s := by
  unfold validate_po
  simp only [Option.getD_some, hd, if_true]
  rw [if_neg (not_not_intro hm)]

theorem validate_po_some_not (s : String)
    (h : ¬(containsDash s = true ∧ beforeFirstDash s ∈ approved_stores)) :
    validate_po (some s) = "UNKNOWN" := by
  unfold validate_po
  simp only [Option.getD_some]
  by_cases hd : containsDash s = true
  · simp only [hd, if_true]
    have hm : beforeFirstDash s ∉ approved_stores := fun hm => h ⟨hd, hm⟩
    rw [if_pos hm]
  · have hd' : containsDash s = false := by simpa using hd
    simp only [hd', Bool.false_eq_true, if_false]
    rw [if_pos (show ("UNKNOWN" : String) ∉ approved_stores by decide)]

theorem validate_po_shape (v : Option String) :
    validate_po v = "UNKNOWN" ∨
    (containsDash (validate_po v) = true ∧
      beforeFirstDash (validate_po v) ∈ approved_stores) := by
  cases v with
  | none => exact Or.inl validate_po_none
  | some s =>
    by_cases hd : containsDash s = true
    · by_cases hm : beforeFirstDash s ∈ approved_stores
      · right
        rw [validate_po_some_approved s hd hm]
        exact ⟨hd, hm⟩
      · exact Or.inl (validate_po_some_not s (fun hc => hm hc.2))
    · exact Or.inl (validate_po_some_not s (fun hc => hd hc.1))

/-! ### upload_pdf structural lemmas -/

theorem upload_pdf_files (env : UploadEnv) (st : AppState) (f : UploadedFile) :
    (upload_pdf env st f).1.files =
      fun p => if p = storagePath f.filename then some f.content else st.files p := by
  unfold upload_pdf
  cases h1 : env.openDoc f.content with
  | none => rfl
  | some doc =>
    split
    · rfl
    · dsimp only []
      split
      · rfl
      · split
        · rfl
        · split
          · rfl
          · split
            · rfl
            · split
              · rfl
              · split
                · rfl
                · rfl

end PdfParser

namespace PdfParser

/-- Every string produced by lines 122–125 on any field value is a
`validate_po` result (the dashless non-string path coincides with the
absent-field sentinel). -/
theorem validate_field_value_shape (fv : Option JsonValue) (s : String)
    (h : validate_field fv = .value s) : ∃ v, s = validate_po v := by
  cases fv with
  | none =>
    injection h with h2
    exact ⟨none, h2.symm⟩
  | some jv =>
    cases jv with
    | jstr t =>
      injection h with h2
      exact ⟨some t, h2.symm⟩
    | jiter hd =>
      cases hd with
      | false =>
        injection h with h2
        refine ⟨none, ?_⟩
        rw [← h2]
        decide
      | true => exact FieldOutcome.noConfusion h
    | jscalar => exact FieldOutcome.noConfusion h

theorem db_insert_ok (db : List (String × String)) (po pdf : String)
    (db2 : List (String × String)) (h : db_insert db po pdf = .ok db2) :
    db2 = db ++ [(po, pdf)] ∧ db.any (fun r => r.1 == po) = false := by
  unfold db_insert at h
  split at h
  · exact Except.noConfusion h
  · rename_i hany
    injection h with h2
    refine ⟨h2.symm, ?_⟩
    cases hb : db.any (fun r => r.1 == po)
    · rfl
    · exact absurd hb hany

theorem db_insert_dup (db : List (String × String)) (po pdf p : String)
    (hmem : (po, p) ∈ db) : db_insert db po pdf = .error () := by
  unfold db_insert
  rw [if_pos]
  rw [List.any_eq_true]
  exact ⟨(po, p), hmem, by simp⟩

theorem upload_pdf_db (env : UploadEnv) (st : AppState) (f : UploadedFile) :
    (upload_pdf env st f).1.dbRecords = st.dbRecords ∨
    ∃ po, (upload_pdf env st f).2 = .ok po (storagePath f.filename) ∧
      (upload_pdf env st f).1.dbRecords =
        st.dbRecords ++ [(po, storagePath f.filename)] := by
  unfold upload_pdf
  cases h1 : env.openDoc f.content with
  | none => exact Or.inl rfl
  | some doc =>
    dsimp only []
    split
    · exact Or.inl rfl
    · cases hllm : env.llm (clean_text (extract_text_from_pdf doc).1) with
      | none => exact Or.inl rfl
      | some result =>
        dsimp only []
        cases hcand : findJsonCandidate result with
        | none => exact Or.inl rfl
        | some snippet =>
          dsimp only []
          cases hjson : env.jsonLoads snippet with
          | none => exact Or.inl rfl
          | some po_data =>
            dsimp only []
            cases hfield : validate_field po_data.translated_po with
            | raise => exact Or.inl rfl
            | value translated_po =>
              dsimp only []
              cases hdb : db_insert st.dbRecords translated_po
                  (storagePath f.filename) with
              | error e => exact Or.inl rfl
              | ok db2 =>
                right
                refine ⟨translated_po, rfl, ?_⟩
                exact (db_insert_ok _ _ _ _ hdb).1

theorem upload_pdf_ok (env : UploadEnv) (st : AppState) (f : UploadedFile)
    (po pdf : String) (h : (upload_pdf env st f).2 = .ok po pdf) :
    pdf = storagePath f.filename ∧ (∃ v, po = validate_po v) ∧
    st.dbRecords.any (fun r => r.1 == po) = false := by
  unfold upload_pdf at h
  split at h
  · exact UploadResult.noConfusion h
  · dsimp only [] at h
    split at h
    · exact UploadResult.noConfusion h
    · split at h
      · exact UploadResult.noConfusion h
      · split at h
        · exact UploadResult.noConfusion h
        · split at h
          · exact UploadResult.noConfusion h
          · split at h
            · exact UploadResult.noConfusion h
            · split at h
              · exact UploadResult.noConfusion h
              · rename_i xfv tp hfield xdb db2 hdb
                injection h with hpo hpdf
                refine ⟨hpdf.symm, ?_, ?_⟩
                · obtain ⟨v, hv⟩ := validate_field_value_shape _ _ hfield
                  exact ⟨v, hpo ▸ hv⟩
                · have hd := db_insert_ok _ _ _ _ hdb
                  exact hpo ▸ hd.2

theorem cli_main_success_shape (env : CliEnv) (po : String)
    (h : cli_main env = .success po) : ∃ v, po = validate_po v := by
  unfold cli_main at h
  split at h
  · exact absurd h (by simp)
  · split at h
    · exact CliOutcome.noConfusion h
    · dsimp only [] at h
      split at h
      · exact absurd h (by simp)
      · split at h
        · exact CliOutcome.noConfusion h
        · unfold cli_validate at h
          split at h
          · exact absurd h (by simp)
          · split at h
            · exact absurd h (by simp)
            · split at h
              · exact CliOutcome.noConfusion h
              · rename_i xfv tp hfield
                injection h with h2
                obtain ⟨v, hv⟩ := validate_field_value_shape _ _ hfield
                exact ⟨v, h2 ▸ hv⟩

theorem cli_main_crash_open (env : CliEnv) (path : String)
    (h1 : env.argvPath = some path) (h2 : env.openDoc path = none) :
    cli_main env = .crash := by
  unfold cli_main
  rw [h1]
  dsimp only []
  rw [h2]

theorem cli_main_outcome (env : CliEnv) (path : String) (doc : PdfDoc)
    (h1 : env.argvPath = some path) (h2 : env.openDoc path = some doc)
    (h3 : ∀ t, env.llm t ≠ none)
    (h4 : ∀ sn pd, env.jsonLoads sn = some pd →
      validate_field pd.translated_po ≠ .raise) :
    (cli_main env).jsonLineCount = 1 ∧
    ((cli_main env).exitCode = 0 ↔ ∃ po, cli_main env = .success po) := by
  unfold cli_main
  rw [h1]
  dsimp only []
  rw [h2]
  dsimp only []
  split
  · exact ⟨rfl, by simp [CliOutcome.exitCode]⟩
  · cases hl : env.llm (clean_text (extract_text_from_pdf doc).1) with
    | none => exact absurd hl (h3 _)
    | some result =>
      dsimp only []
      unfold cli_validate
      cases hcand : findJsonCandidate result with
      | none => exact ⟨rfl, by simp [CliOutcome.exitCode]⟩
      | some snippet =>
        dsimp only []
        cases hjson : env.jsonLoads snippet with
        | none => exact ⟨rfl, by simp [CliOutcome.exitCode]⟩
        | some po_data =>
          dsimp only []
          cases hfield : validate_field po_data.translated_po with
          | raise => exact absurd hfield (h4 _ _ hjson)
          | value translated_po =>
            dsimp only []
            refine ⟨rfl, ?_⟩
            simp only [CliOutcome.exitCode]
            constructor
            · intro _
              exact ⟨translated_po, rfl⟩
            · intro _
              trivial

theorem cli_main_crash_field (env : CliEnv) (path : String) (doc : PdfDoc)
    (result sn : String) (pd : PoData)
    (h1 : env.argvPath = some path) (h2 : env.openDoc path = some doc)
    (hne : ¬stripStr (clean_text (extract_text_from_pdf doc).1) = "")
    (hl : env.llm (clean_text (extract_text_from_pdf doc).1) = some result)
    (hc : findJsonCandidate result = some sn)
    (hj : env.jsonLoads sn = some pd)
    (hr : validate_field pd.translated_po = .raise) :
    cli_main env = .crash := by
  unfold cli_main
  rw [h1]
  dsimp only []
  rw [h2]
  dsimp only []
  rw [if_neg hne]
  rw [hl]
  dsimp only []
  unfold cli_validate
  rw [hc]
  dsimp only []
  rw [hj]
  dsimp only []
  rw [hr]

end PdfParser

namespace PdfParser

/-! ### Concrete inputs for witnesses and counterexamples -/

/-- A digital text layer of 101 characters (strictly above the threshold). -/
def longA : String := ⟨List.replicate 101 'a'⟩

/-- A document whose digital layer is 101 characters long. -/
def docLong : PdfDoc := ⟨[longA], ["ocr text"]⟩

/-- A document whose stripped digital layer is exactly 100 characters long. -/
def doc100 : PdfDoc := ⟨[⟨List.replicate 100 'a'⟩], ["ocrtext"]⟩

/-- A model response carrying an identifier with an approved store code but a
non-5-digit PO part. -/
def llmOutBad : String := "\x7b\"translated_po\": \"436-abc\"\x7d"

/-- CLI collaborators under which the model answers `436-abc`. -/
def envC1 : CliEnv :=
  ⟨some "a.pdf", fun _ => some docLong, fun _ => some llmOutBad,
   fun _ => some ⟨some (.jstr "436-abc")⟩⟩

/-- A well-formed model response. -/
def llmOutGood : String := "\x7b\"translated_po\": \"436-10432\"\x7d"

/-- CLI collaborators under which the model answers `436-10432`. -/
def envGood : CliEnv :=
  ⟨some "a.pdf", fun _ => some docLong, fun _ => some llmOutGood,
   fun _ => some ⟨some (.jstr "436-10432")⟩⟩

/-- CLI collaborators under which the model answers a JSON object whose
`translated_po` is the number 42 (a non-string scalar). -/
def envScalar : CliEnv :=
  ⟨some "a.pdf", fun _ => some docLong,
   fun _ => some "\x7b\"translated_po\": 42\x7d",
   fun _ => some ⟨some .jscalar⟩⟩

/-- CLI collaborators under which the model answers the empty string. -/
def envC3 : CliEnv :=
  ⟨some "a.pdf", fun _ => some docLong, fun _ => some "", fun _ => none⟩

/-- CLI collaborators for a document `fitz.open` cannot decode. -/
def envC5 : CliEnv :=
  ⟨some "corrupt.pdf", fun _ => none, fun _ => none, fun _ => none⟩

/-- Upload collaborators where `fitz.open` fails on every content. -/
def uenvNone : UploadEnv := ⟨fun _ => none, fun _ => none, fun _ => none⟩

/-- The empty server state: no stored files, empty table. -/
def st0 : AppState := ⟨fun _ => none, []⟩

/-- Server state already holding one sentinel record. -/
def stU : AppState := ⟨fun _ => none, [("UNKNOWN", "x.pdf")]⟩

/-- An upload named `a.pdf` with content bytes `[1]`. -/
def fA1 : UploadedFile := ⟨"a.pdf", [1]⟩

/-- A second upload also named `a.pdf`, with different content bytes `[2]`. -/
def fA2 : UploadedFile := ⟨"a.pdf", [2]⟩

/-- An upload with a distinct filename `b.pdf`. -/
def fB : UploadedFile := ⟨"b.pdf", [3]⟩

/-- An upload named `c6.pdf` with content bytes `[7]`. -/
def fC6 : UploadedFile := ⟨"c6.pdf", [7]⟩

/-- Path difference lemma: distinct filenames give distinct storage paths. -/
theorem storagePath_ne (a b : String) (h : a ≠ b) :
    storagePath a ≠ storagePath b := by
  intro he
  apply h
  unfold storagePath at he
  have hd : ("PDF_storage/" ++ a).data = ("PDF_storage/" ++ b).data :=
    congrArg String.data he
  rw [String.data_append, String.data_append] at hd
  exact String.ext (List.append_cancel_left hd)

end PdfParser

namespace PdfParser

/-! ### Claim theorems -/

/-- C1 (counterexample): the response `436-abc` has an approved store code
but a non-5-digit PO part; the CLI nevertheless prints it as `po_number`,
so the persisted/emitted identifier is neither the sentinel nor of the form
STORE-POCODE with POCODE an exactly-5-digit numeric string. -/
theorem c1_counterexample :
    cli_main envC1 = .success "436-abc" ∧
    specValidIdentifier "436-abc" = false := by
  constructor
  · decide
  · decide

/-- C1 (amended): every identifier that the CLI prints as `po_number` or
that the upload endpoint hands to the record-store insert is either the
sentinel `UNKNOWN` or a string containing `-` whose first-dash store code
is in the static allow-list; the part after the dash is not validated. -/
theorem c1_amended_identifier_shape (env : CliEnv) (uenv : UploadEnv)
    (st : AppState) (f : UploadedFile) (po pdf : String) :
    (cli_main env = .success po →
      po = "UNKNOWN" ∨
      (containsDash po = true ∧ beforeFirstDash po ∈ approved_stores)) ∧
    ((upload_pdf uenv st f).2 = .ok po pdf →
      po = "UNKNOWN" ∨
      (containsDash po = true ∧ beforeFirstDash po ∈ approved_stores)) := by
  constructor
  · intro h
    obtain ⟨v, hv⟩ := cli_main_success_shape env po h
    rw [hv]
    exact validate_po_shape v
  · intro h
    obtain ⟨-, ⟨v, hv⟩, -⟩ := upload_pdf_ok uenv st f po pdf h
    rw [hv]
    exact validate_po_shape v

/-- C1 (witness): the amended shape at the concrete successful run. -/
theorem c1_witness :
    "436-10432" = "UNKNOWN" ∨
    (containsDash "436-10432" = true ∧
      beforeFirstDash "436-10432" ∈ approved_stores) :=
  (c1_amended_identifier_shape envGood uenvNone st0 fA1 "436-10432" "p").1
    (by decide)

/-- C2: a missing `translated_po` field, a value without a dash, or a value
whose first-dash store code is not approved all become the sentinel, while a
value whose store code is approved is returned unchanged. -/
theorem c2_validator_allowlist (s : String) :
    validate_po none = "UNKNOWN" ∧
    (¬(containsDash s = true ∧ beforeFirstDash s ∈ approved_stores) →
      validate_po (some s) = "UNKNOWN") ∧
    (containsDash s = true → beforeFirstDash s ∈ approved_stores →
      validate_po (some s) = s) :=
  ⟨validate_po_none, validate_po_some_not s,
   fun hd hm => validate_po_some_approved s hd hm⟩

/-- C2 (witness): the two worked examples of the spec. -/
theorem c2_validator_allowlist_witness :
    validate_po (some "999-10432") = "UNKNOWN" ∧
    validate_po (some "436-10432") = "436-10432" :=
  ⟨(c2_validator_allowlist "999-10432").2.1 (by decide),
   (c2_validator_allowlist "436-10432").2.2 (by decide) (by decide)⟩

/-- C3 (counterexample): on the empty model response the run does not yield
any identifier as a normal success — it prints an error line and exits 1;
and on a parsed response whose `translated_po` is the number 42 the
validation raises TypeError, crashing the run with no output at all. -/
theorem c3_counterexample :
    cli_main envC3 = .failure "No JSON" ∧ (cli_main envC3).exitCode = 1 ∧
    cli_main envScalar = .crash := by
  refine ⟨?_, ?_, ?_⟩ <;> decide

/-- C3 (amended): the validation step surfaces distinguishable outcomes but
neither never raises nor always reaches the output step: no JSON candidate
and unparseable candidates are hard failures (error line, exit 1); a parsed
object whose `translated_po` is absent, a string, or an array/object
without a dash yields an Identifier as a normal success; and a parsed
object whose `translated_po` is a number, boolean or null — or an
array/object containing a dash — raises uncaught, yielding no Identifier. -/
theorem c3_amended_validation_outcomes (j : String → Option PoData)
    (result : String) :
    (findJsonCandidate result = none →
      cli_validate j result = .failure "No JSON") ∧
    (∀ sn, findJsonCandidate result = some sn → j sn = none →
      cli_validate j result = .failure "Bad JSON") ∧
    (∀ sn pd, findJsonCandidate result = some sn → j sn = some pd →
      ((pd.translated_po = none → cli_validate j result = .success "UNKNOWN") ∧
       (∀ s, pd.translated_po = some (.jstr s) →
         cli_validate j result = .success (validate_po (some s))) ∧
       (pd.translated_po = some .jscalar → cli_validate j result = .crash) ∧
       (pd.translated_po = some (.jiter true) →
         cli_validate j result = .crash) ∧
       (pd.translated_po = some (.jiter false) →
         cli_validate j result = .success "UNKNOWN"))) := by
  refine ⟨?_, ?_, ?_⟩
  · intro h
    unfold cli_validate
    rw [h]
  · intro sn h hj
    unfold cli_validate
    rw [h]
    dsimp only []
    rw [hj]
  · intro sn pd h hj
    have hstep : ∀ o : CliOutcome,
        (match validate_field pd.translated_po with
          | .raise => CliOutcome.crash
          | .value translated_po => .success translated_po) = o →
        cli_validate j result = o := by
      intro o ho
      unfold cli_validate
      rw [h]
      dsimp only []
      rw [hj]
      dsimp only []
      exact ho
    refine ⟨?_, ?_, ?_, ?_, ?_⟩
    · intro hf
      exact hstep _ (by rw [hf]; rfl)
    · intro s hf
      exact hstep _ (by rw [hf]; rfl)
    · intro hf
      exact hstep _ (by rw [hf]; rfl)
    · intro hf
      exact hstep _ (by rw [hf]; rfl)
    · intro hf
      exact hstep _ (by rw [hf]; rfl)

/-- C3 (witness): the outcomes at concrete responses and field values. -/
theorem c3_witness :
    cli_validate (fun _ => none) "" = .failure "No JSON" ∧
    cli_validate (fun _ => none) "\x7bx\x7d" = .failure "Bad JSON" ∧
    cli_validate (fun _ => some ⟨some .jscalar⟩) "\x7bx\x7d" = .crash ∧
    cli_validate (fun _ => some ⟨some (.jstr "436-10432")⟩) "\x7bx\x7d" =
      .success (validate_po (some "436-10432")) :=
  ⟨(c3_amended_validation_outcomes (fun _ => none) "").1 rfl,
   (c3_amended_validation_outcomes (fun _ => none) "\x7bx\x7d").2.1
     "\x7bx\x7d" rfl rfl,
   ((c3_amended_validation_outcomes (fun _ => some ⟨some .jscalar⟩)
       "\x7bx\x7d").2.2 "\x7bx\x7d" ⟨some .jscalar⟩ rfl rfl).2.2.1 rfl,
   ((c3_amended_validation_outcomes
       (fun _ => some ⟨some (.jstr "436-10432")⟩)
       "\x7bx\x7d").2.2 "\x7bx\x7d" ⟨some (.jstr "436-10432")⟩ rfl rfl).2.1
     "436-10432" rfl⟩

/-- C4 (counterexample): a document whose stripped digital layer is exactly
100 characters (equal to the threshold) takes the OCR path, contradicting
the claim that length-greater-or-equal documents return the digital text. -/
theorem c4_counterexample :
    extract_text_from_pdf doc100 = (joinPages doc100.ocrPages, true) ∧
    (stripStr (joinPages doc100.digitalPages)).length = 100 := by
  constructor
  · decide
  · decide

/-- C4 (amended): the digital text is returned exactly when its stripped
length is strictly greater than 100; at or below 100 the per-page OCR
concatenation is returned, even if shorter or empty. -/
theorem c4_amended_threshold (doc : PdfDoc) :
    (100 < (stripStr (joinPages doc.digitalPages)).length →
      extract_text_from_pdf doc = (joinPages doc.digitalPages, false)) ∧
    ((stripStr (joinPages doc.digitalPages)).length ≤ 100 →
      extract_text_from_pdf doc = (joinPages doc.ocrPages, true)) := by
  constructor
  · intro h
    unfold extract_text_from_pdf
    rw [if_pos h]
  · intro h
    unfold extract_text_from_pdf
    rw [if_neg (by omega)]

/-- C4 (witness): both branches at concrete documents. -/
theorem c4_witness :
    extract_text_from_pdf docLong = (joinPages docLong.digitalPages, false) ∧
    extract_text_from_pdf doc100 = (joinPages doc100.ocrPages, true) :=
  ⟨(c4_amended_threshold docLong).1 (by decide),
   (c4_amended_threshold doc100).2 (by decide)⟩

end PdfParser

namespace PdfParser

/-- C5 (counterexample): when the document cannot be opened at all,
`fitz.open` raises and the exception is uncaught — the process emits no
JSON line, contradicting the claim that exactly one JSON line is emitted
even in that case; likewise a parsed `translated_po` of 42 crashes the run
with zero JSON lines. -/
theorem c5_counterexample :
    cli_main envC5 = .crash ∧
    (cli_main envC5).jsonLineCount = 0 ∧
    (cli_main envC5).exitCode = 1 ∧
    (cli_main envScalar).jsonLineCount = 0 := by
  refine ⟨?_, ?_, ?_, ?_⟩ <;> decide

/-- C5 (amended): given a path argument, if the document opens, the LLM
call returns, and every parsed `translated_po` value is one on which lines
122–125 do not raise, then the CLI emits exactly one JSON line and exits 0
exactly on success; if the document cannot be opened, or the parsed value
makes those lines raise (a number/boolean/null, or an array/object with a
dash), the run dies by an uncaught exception with no JSON line. -/
theorem c5_amended_cli_contract (env : CliEnv) (path : String)
    (h1 : env.argvPath = some path) :
    (env.openDoc path = none →
      cli_main env = .crash ∧ (cli_main env).jsonLineCount = 0) ∧
    (∀ doc, env.openDoc path = some doc → (∀ t, env.llm t ≠ none) →
      (∀ sn pd, env.jsonLoads sn = some pd →
        validate_field pd.translated_po ≠ .raise) →
      (cli_main env).jsonLineCount = 1 ∧
      ((cli_main env).exitCode = 0 ↔ ∃ po, cli_main env = .success po)) ∧
    (∀ doc result sn pd, env.openDoc path = some doc →
      stripStr (clean_text (extract_text_from_pdf doc).1) ≠ "" →
      env.llm (clean_text (extract_text_from_pdf doc).1) = some result →
      findJsonCandidate result = some sn → env.jsonLoads sn = some pd →
      validate_field pd.translated_po = .raise →
      cli_main env = .crash ∧ (cli_main env).jsonLineCount = 0) := by
  refine ⟨?_, ?_, ?_⟩
  · intro h2
    have hc := cli_main_crash_open env path h1 h2
    exact ⟨hc, by rw [hc]; rfl⟩
  · intro doc h2 h3 h4
    exact cli_main_outcome env path doc h1 h2 h3 h4
  · intro doc result sn pd h2 hne hl hc hj hr
    have hcr := cli_main_crash_field env path doc result sn pd h1 h2 hne hl hc hj hr
    exact ⟨hcr, by rw [hcr]; rfl⟩

/-- C5 (witness): the contract at a concrete successful run. -/
theorem c5_witness :
    (cli_main envGood).jsonLineCount = 1 ∧
    ((cli_main envGood).exitCode = 0 ↔ ∃ po, cli_main envGood = .success po) :=
  (c5_amended_cli_contract envGood "a.pdf" rfl).2.1 docLong rfl
    (fun t h => by simp [envGood] at h)
    (fun sn pd h => by
      simp only [envGood, Option.some.injEq] at h
      rw [← h]
      decide)

/-- C6 (counterexample): a run that fails hard in extraction (the document
cannot even be opened) has already written the uploaded bytes to storage,
so intermediate state is written before validation succeeds. -/
theorem c6_counterexample :
    (upload_pdf uenvNone st0 fC6).2 = .crash ∧
    (upload_pdf uenvNone st0 fC6).1.files "PDF_storage/c6.pdf" = some [7] ∧
    st0.files "PDF_storage/c6.pdf" = none := by
  refine ⟨?_, ?_, ?_⟩ <;> decide

/-- C6 (amended): the record store is unchanged on every run that does not
reach a successful insert, but the uploaded document is always written to
its storage path before extraction, even when the run later fails hard. -/
theorem c6_amended_prior_write (env : UploadEnv) (st : AppState)
    (f : UploadedFile) :
    (upload_pdf env st f).1.files (storagePath f.filename) = some f.content ∧
    ((upload_pdf env st f).1.dbRecords = st.dbRecords ∨
      ∃ po, (upload_pdf env st f).2 = .ok po (storagePath f.filename) ∧
        (upload_pdf env st f).1.dbRecords =
          st.dbRecords ++ [(po, storagePath f.filename)]) := by
  constructor
  · have hf := congrFun (upload_pdf_files env st f) (storagePath f.filename)
    rw [hf, if_pos rfl]
  · exact upload_pdf_db env st f

/-- C7: inserting the same non-sentinel identifier twice is rejected by the
uniqueness constraint on `po_number`: the second insert raises and the
first record is still present, unchanged. -/
theorem c7_unique_insert (db db1 : List (String × String))
    (po pdf1 pdf2 : String) (_hpo : po ≠ "UNKNOWN")
    (h : db_insert db po pdf1 = .ok db1) :
    (po, pdf1) ∈ db1 ∧ db_insert db1 po pdf2 = .error () := by
  have hd := db_insert_ok db po pdf1 db1 h
  have hmem : (po, pdf1) ∈ db1 := by
    rw [hd.1]
    exact List.mem_append_right _ (List.mem_singleton.mpr rfl)
  exact ⟨hmem, db_insert_dup db1 po pdf2 pdf1 hmem⟩

/-- C7 (witness): the constraint at a concrete pair of inserts. -/
theorem c7_witness :
    ("436-10432", "a.pdf") ∈ [("436-10432", "a.pdf")] ∧
    db_insert [("436-10432", "a.pdf")] "436-10432" "b.pdf" = .error () :=
  c7_unique_insert [] [("436-10432", "a.pdf")] "436-10432" "a.pdf" "b.pdf"
    (by decide) rfl

/-- C8 (counterexample): a second upload with the same filename replaces
the bytes stored at the path of the first document, so stored documents are not
immutable across uploads. -/
theorem c8_counterexample :
    (upload_pdf uenvNone st0 fA1).1.files "PDF_storage/a.pdf" = some [1] ∧
    (upload_pdf uenvNone (upload_pdf uenvNone st0 fA1).1 fA2).1.files
      "PDF_storage/a.pdf" = some [2] := by
  constructor
  · decide
  · decide

/-- C8 (amended): after an upload stores a document, a later upload with a
different filename leaves the stored bytes unchanged; only an upload
reusing the same filename overwrites them. -/
theorem c8_amended_overwrite (env : UploadEnv) (st : AppState)
    (f1 f2 : UploadedFile) (h : f1.filename ≠ f2.filename) :
    (upload_pdf env st f1).1.files (storagePath f1.filename) =
      some f1.content ∧
    (upload_pdf env (upload_pdf env st f1).1 f2).1.files
      (storagePath f1.filename) = some f1.content := by
  have hf1 := congrFun (upload_pdf_files env st f1) (storagePath f1.filename)
  rw [hf1, if_pos rfl]
  refine ⟨rfl, ?_⟩
  have hf2 := congrFun
    (upload_pdf_files env (upload_pdf env st f1).1 f2) (storagePath f1.filename)
  rw [hf2, if_neg (storagePath_ne _ _ h), hf1, if_pos rfl]

/-- C8 (witness): preservation at a concrete pair of distinct filenames. -/
theorem c8_witness :
    (upload_pdf uenvNone st0 fA1).1.files (storagePath fA1.filename) =
      some fA1.content ∧
    (upload_pdf uenvNone (upload_pdf uenvNone st0 fA1).1 fB).1.files
      (storagePath fA1.filename) = some fA1.content :=
  c8_amended_overwrite uenvNone st0 fA1 fB (by decide)

/-- C9: the canonicalization pipeline of `clean_text` (lowercase, collapse
line breaks, strip to the allow-set, collapse spaces, trim) is idempotent. -/
theorem c9_clean_text_idempotent (s : String) :
    clean_text (clean_text s) = clean_text s := by
  unfold clean_text
  exact congrArg String.mk (clean_list_idem s.data)

/-- C10: the uniqueness constraint on `po_number` applies to the sentinel
too — with an `UNKNOWN` record already present, inserting `UNKNOWN` again
raises a uniqueness violation, and no upload run can persist a second
sentinel record. -/
theorem c10_sentinel_unique (env : UploadEnv) (st : AppState)
    (f : UploadedFile) (q p : String)
    (hs : ("UNKNOWN", p) ∈ st.dbRecords) :
    db_insert st.dbRecords "UNKNOWN" q = .error () ∧
    (∀ po pdf, (upload_pdf env st f).2 = .ok po pdf → po ≠ "UNKNOWN") := by
  constructor
  · exact db_insert_dup st.dbRecords "UNKNOWN" q p hs
  · intro po pdf h hpo
    obtain ⟨-, -, hany⟩ := upload_pdf_ok env st f po pdf h
    subst hpo
    have htrue : st.dbRecords.any (fun r => r.1 == "UNKNOWN") = true :=
      List.any_eq_true.mpr ⟨("UNKNOWN", p), hs, by simp⟩
    rw [htrue] at hany
    exact Bool.noConfusion hany

/-- C10 (witness): the sentinel conflict at a concrete state. -/
theorem c10_witness :
    db_insert stU.dbRecords "UNKNOWN" "y.pdf" = .error () :=
  (c10_sentinel_unique uenvNone stU fA1 "y.pdf" "x.pdf" (by decide)).1

end PdfParser
